import Mathlib

/-!
Verification of the report-workflow engine of the Sazegari repository.

The Python modules `app/core/workflow.py`, `app/core/rbac.py` and the
report action handling in `app/modules/reports/router.py` are shallowly
embedded below.  Machine integers are modelled as `Nat`; nullable columns
as `Option`; SQLAlchemy queries over a session become list operations over
an explicit `DB` record holding the relevant tables.  JSON text columns
(`content_json`, `payload_json`, `schema_json`) are modelled by their
parsed JSON value (`Option Json`, `none` standing for empty or unparseable
text), identifying `json.loads`/`json.dumps` round trips with the identity.
-/

namespace Sazegari

/-- Embedding of `app/db/models/user.py` — `Role` enum. -/
inductive Role where
  | secretariatUser
  | secretariatAdmin
  | orgProvExpert
  | orgProvManager
  | orgCountyExpert
  | orgCountyManager
deriving DecidableEq, Repr

/-- Embedding of `app/db/models/report.py` — `ReportKind` enum. -/
inductive ReportKind where
  | county
  | provincial
deriving DecidableEq, Repr

/-- Embedding of `app/db/models/report.py` — `ReportStatus` enum. -/
inductive ReportStatus where
  | draft
  | countyExpertReview
  | countyManagerReview
  | provExpertReview
  | provManagerReview
  | secretariatUserReview
  | secretariatAdminReview
  | secretariatReview
  | needsRevision
  | finalApproved
deriving DecidableEq, Repr

/-- The string wire value of a status (the `.value` of the Python str-enum). -/
def ReportStatus.value : ReportStatus → String
  | .draft => "draft"
  | .countyExpertReview => "county_expert_review"
  | .countyManagerReview => "county_manager_review"
  | .provExpertReview => "prov_expert_review"
  | .provManagerReview => "prov_manager_review"
  | .secretariatUserReview => "secretariat_user_review"
  | .secretariatAdminReview => "secretariat_admin_review"
  | .secretariatReview => "secretariat_review"
  | .needsRevision => "needs_revision"
  | .finalApproved => "final_approved"

/-- Minimal JSON value type used to model the JSON text columns. -/
inductive Json where
  | null
  | bool (b : Bool)
  | num (n : Int)
  | str (s : String)
  | arr (items : List Json)
  | obj (fields : List (String × Json))

/-- Embedding of `app/db/models/user.py` — `User`.  `isActive` models the `users.is_active`
column added by migration `20260212120000_add_user_is_active` and read by the
login/session checks in `app/main.py`; the ORM `User` model does not map it,
so the workflow queries can never filter on it. -/
structure User where
  id : Nat
  role : Role
  orgId : Option Nat
  countyId : Option Nat
  isActive : Bool
deriving DecidableEq, Repr

/-- Embedding of `app/db/models/report.py` — `Report`.  `contentJson` holds the parsed
value of the `content_json` text column (`none` = empty or invalid JSON). -/
structure Report where
  id : Nat
  orgId : Nat
  countyId : Option Nat
  createdById : Nat
  currentOwnerId : Option Nat
  kind : ReportKind
  status : ReportStatus
  contentJson : Option Json

/-- Embedding of `app/db/models/workflow_log.py` — `WorkflowLog`.  `from_status`/`to_status`
are stored as plain strings (the `.value` of the status enum). -/
structure WorkflowLog where
  id : Nat
  reportId : Nat
  actorId : Nat
  fromStatus : String
  toStatus : String
  action : String
  comment : String
deriving DecidableEq, Repr

/-- Embedding of `app/db/models/report_submission.py` — `ReportSubmission` link row. -/
structure ReportSubmission where
  id : Nat
  reportId : Nat
  submissionId : Nat
deriving DecidableEq, Repr

/-- Embedding of `app/db/models/submission.py` — `Submission` (the fields the report
aggregation reads).  `payload` is the parsed `payload_json`. -/
structure Submission where
  id : Nat
  formId : Nat
  payload : Option Json

/-- Embedding of `app/db/models/form_template.py` — `FormTemplate` (fields read by the
aggregation).  `schemaJson` is the parsed `schema_json`. -/
structure FormTemplate where
  id : Nat
  title : String
  schemaJson : Option Json

/-- Embedding of `app/db/models/notification.py` — `Notification` as created by
`app/utils/notify.py`. -/
structure Notification where
  userId : Nat
  reportId : Option Nat
  type : String
  message : String
  isRead : Bool
deriving DecidableEq, Repr

/-- The database tables the embedded code reads and writes. -/
structure DB where
  users : List User
  reports : List Report
  logs : List WorkflowLog
  reportSubmissions : List ReportSubmission
  submissions : List Submission
  formTemplates : List FormTemplate

/-- Embedding of `app/core/workflow.py` — `Transition` dataclass. -/
structure Transition where
  kind : ReportKind
  fromStatus : ReportStatus
  action : String
  toStatus : ReportStatus
  recipientRoles : List Role
deriving DecidableEq, Repr

/-- Embedding of `app/core/workflow.py` — the `TRANSITIONS` tuple, in source order. -/
def TRANSITIONS : List Transition := [
  -- County report workflow
  ⟨.county, .draft, "submit_for_review", .countyManagerReview, [.orgCountyManager]⟩,
  ⟨.county, .needsRevision, "submit_for_review", .countyManagerReview, [.orgCountyManager]⟩,
  ⟨.county, .countyManagerReview, "approve", .provExpertReview, [.orgProvExpert]⟩,
  ⟨.county, .provExpertReview, "approve", .provManagerReview, [.orgProvManager]⟩,
  ⟨.county, .provManagerReview, "final_approve", .finalApproved, []⟩,
  ⟨.county, .countyManagerReview, "request_revision", .needsRevision, [.orgCountyExpert]⟩,
  ⟨.county, .provExpertReview, "request_revision", .countyManagerReview, [.orgCountyManager]⟩,
  ⟨.county, .provManagerReview, "request_revision", .provExpertReview, [.orgProvExpert]⟩,
  -- Provincial report workflow
  ⟨.provincial, .draft, "submit_for_review", .provManagerReview, [.orgProvManager]⟩,
  ⟨.provincial, .needsRevision, "submit_for_review", .provManagerReview, [.orgProvManager]⟩,
  ⟨.provincial, .provManagerReview, "approve", .secretariatUserReview, [.secretariatUser]⟩,
  ⟨.provincial, .secretariatUserReview, "approve", .secretariatAdminReview, [.secretariatAdmin]⟩,
  ⟨.provincial, .secretariatAdminReview, "final_approve", .finalApproved, []⟩,
  ⟨.provincial, .provManagerReview, "request_revision", .needsRevision, [.orgCountyExpert]⟩,
  ⟨.provincial, .secretariatUserReview, "request_revision", .provManagerReview, [.orgProvManager]⟩,
  ⟨.provincial, .secretariatAdminReview, "request_revision", .secretariatUserReview, [.secretariatUser]⟩]

/-- Match predicate of the lookup loop in `get_transition`. -/
def transMatch (kind : ReportKind) (status : ReportStatus) (action : String)
    (t : Transition) : Bool :=
  t.kind == kind && t.fromStatus == status && t.action == action

/-- Embedding of `app/core/workflow.py` — `get_transition`.  The Python `KeyError` is
modelled by `none`.  The legacy `SECRETARIAT_REVIEW` fallback is translated
verbatim. -/
def getTransition (kind : ReportKind) (status : ReportStatus) (action : String) :
    Option Transition :=
  match TRANSITIONS.find? (transMatch kind status action) with
  | some t => some t
  | none =>
    if kind = ReportKind.provincial ∧ status = ReportStatus.secretariatReview then
      if action = "final_approve" then
        some ⟨kind, status, action, ReportStatus.finalApproved, []⟩
      else if action = "request_revision" then
        some ⟨kind, status, action, ReportStatus.provManagerReview, [Role.orgProvManager]⟩
      else none
    else none

/-- Embedding of `app/core/workflow.py` — `allowed_actions_for_status`: dedup-preserving
collection loop plus the legacy extension. -/
def allowedActionsForStatus (kind : ReportKind) (status : ReportStatus) : List String :=
  let actions := TRANSITIONS.foldl
    (fun acc t =>
      if t.kind = kind ∧ t.fromStatus = status ∧ t.action ∉ acc then acc ++ [t.action]
      else acc) []
  if kind = ReportKind.provincial ∧ status = ReportStatus.secretariatReview then
    actions ++ ["final_approve", "request_revision"]
  else actions

/-- Embedding of `app/core/workflow.py` — `_users_by_role`. -/
def usersByRole (db : DB) (role : Role) (report : Report) : List User :=
  let q := db.users.filter (fun u => u.role == role)
  if role = Role.secretariatUser ∨ role = Role.secretariatAdmin then q
  else
    let q := q.filter (fun u => u.orgId == some report.orgId)
    if role = Role.orgCountyExpert ∨ role = Role.orgCountyManager then
      match report.countyId with
      | none => q
      | some cid => q.filter (fun u => u.countyId == some cid)
    else q

/-- The de-duplication loop at the end of `get_recipients`: keep the first
occurrence of each user id (`seen` is the set of ids already emitted). -/
def dedupById (seen : List Nat) : List User → List User
  | [] => []
  | u :: rest =>
    if u.id ∈ seen then dedupById seen rest
    else u :: dedupById (u.id :: seen) rest

/-- Embedding of `app/core/workflow.py` — `get_recipients`.  `none` models the `KeyError`
escaping from `get_transition`. -/
def getRecipients (db : DB) (report : Report) (action : String) : Option (List User) :=
  match getTransition report.kind report.status action with
  | none => none
  | some t =>
    if t.recipientRoles = [] then some []
    else
      let recipients := t.recipientRoles.foldl (fun acc role => acc ++ usersByRole db role report) []
      some (dedupById [] recipients)

/-- The `role_allowed` table local to `allowed_actions` (missing keys give
`[]`, the Python `dict.get` default `()`). -/
def roleAllowed (kind : ReportKind) (status : ReportStatus) : List Role :=
  match kind, status with
  | .county, .draft => [.orgCountyExpert]
  | .county, .needsRevision => [.orgCountyExpert, .orgCountyManager, .orgProvExpert, .orgProvManager]
  | .county, .countyManagerReview => [.orgCountyManager]
  | .county, .provExpertReview => [.orgProvExpert]
  | .county, .provManagerReview => [.orgProvManager]
  | .provincial, .draft => [.orgProvExpert]
  | .provincial, .needsRevision => [.orgCountyExpert, .orgProvManager, .secretariatUser, .secretariatAdmin, .orgProvExpert]
  | .provincial, .provManagerReview => [.orgProvManager]
  | .provincial, .secretariatUserReview => [.secretariatUser]
  | .provincial, .secretariatAdminReview => [.secretariatAdmin]
  | .provincial, .secretariatReview => [.secretariatAdmin]
  | _, _ => []

/-- Embedding of `app/core/workflow.py` — `allowed_actions`. -/
def allowedActions (user : User) (report : Report) : List String :=
  if report.status = ReportStatus.finalApproved then []
  else if report.currentOwnerId ≠ some user.id then []
  else
    let candidates := allowedActionsForStatus report.kind report.status
    let roles := roleAllowed report.kind report.status
    if roles ≠ [] ∧ user.role ∉ roles then [] else candidates

/-- The `editable` table local to `can_edit` (identical contents to
`role_allowed`; kept separate as the source keeps two copies). -/
def editableRoles (kind : ReportKind) (status : ReportStatus) : List Role :=
  match kind, status with
  | .county, .draft => [.orgCountyExpert]
  | .county, .needsRevision => [.orgCountyExpert, .orgCountyManager, .orgProvExpert, .orgProvManager]
  | .county, .countyManagerReview => [.orgCountyManager]
  | .county, .provExpertReview => [.orgProvExpert]
  | .county, .provManagerReview => [.orgProvManager]
  | .provincial, .draft => [.orgProvExpert]
  | .provincial, .needsRevision => [.orgCountyExpert, .orgProvManager, .secretariatUser, .secretariatAdmin, .orgProvExpert]
  | .provincial, .provManagerReview => [.orgProvManager]
  | .provincial, .secretariatUserReview => [.secretariatUser]
  | .provincial, .secretariatAdminReview => [.secretariatAdmin]
  | .provincial, .secretariatReview => [.secretariatAdmin]
  | _, _ => []

/-- Embedding of `app/core/workflow.py` — `can_edit`. -/
def canEdit (user : User) (report : Report) : Bool :=
  if report.currentOwnerId ≠ some user.id then false
  else if report.status = ReportStatus.finalApproved then false
  else
    let roles := editableRoles report.kind report.status
    decide (roles = []) || decide (user.role ∈ roles)

/-- Embedding of `app/core/workflow.py` — `can_delete`. -/
def canDelete (user : User) (report : Report) : Bool :=
  if report.status = ReportStatus.finalApproved then false
  else if user.orgId ≠ some report.orgId then false
  else if report.kind = ReportKind.county then
    user.role == Role.orgCountyExpert
      && report.countyId.isSome
      && user.countyId == report.countyId
      && report.currentOwnerId == some user.id
  else
    user.role == Role.orgProvExpert && report.currentOwnerId == some user.id

/-- Embedding of `app/core/rbac.py` — `ROLE_PERMISSIONS` (the permission matrix). -/
def rolePermissions : Role → List String
  | .orgCountyManager =>
    ["forms.submit", "forms.view_county", "forms.view_org",
     "reports.view_county", "reports.view_queue_own",
     "workflow.approve", "workflow.edit_content", "workflow.request_revision",
     "workflow.submit_for_review"]
  | .orgCountyExpert =>
    ["forms.submit", "forms.view_county", "forms.view_org",
     "reports.create", "reports.delete", "reports.view_county", "reports.view_queue_own",
     "workflow.edit_content", "workflow.submit_for_review"]
  | .orgProvManager =>
    ["forms.view_org", "forms.view_province_scope",
     "reports.view_org", "reports.view_queue_own",
     "workflow.approve", "workflow.edit_content", "workflow.final_approve",
     "workflow.request_revision", "workflow.submit_for_review"]
  | .orgProvExpert =>
    ["forms.submit", "forms.template.create", "forms.template.delete",
     "forms.template.update", "forms.view_org", "forms.view_province_scope",
     "reports.create", "reports.delete", "reports.view_org", "reports.view_queue_own",
     "workflow.approve", "workflow.edit_content", "workflow.request_revision",
     "workflow.submit_for_review"]
  | .secretariatAdmin =>
    ["forms.template.create", "forms.template.delete", "forms.template.update",
     "forms.view_all", "forms.view_county", "forms.view_org", "forms.view_province_scope",
     "masterdata.manage",
     "reports.view_all", "reports.view_county", "reports.view_org", "reports.view_queue_own",
     "workflow.edit_content", "workflow.final_approve", "workflow.request_revision",
     "workflow.submit_for_review"]
  | .secretariatUser =>
    ["forms.template.create", "forms.template.delete", "forms.template.update",
     "forms.view_all", "forms.view_county", "forms.view_org", "forms.view_province_scope",
     "reports.view_all", "reports.view_county", "reports.view_org", "reports.view_queue_own",
     "workflow.approve", "workflow.edit_content", "workflow.request_revision",
     "workflow.submit_for_review"]

/-- Embedding of `app/core/rbac.py` — `has_perm`. -/
def hasPerm (user : User) (perm : String) : Bool :=
  (rolePermissions user.role).contains perm

/-- Embedding of `app/core/rbac.py` — `can_view_report`. -/
def canViewReport (user : User) (orgId countyId currentOwnerId : Option Nat) : Bool :=
  if hasPerm user "reports.view_all" then true
  else if orgId.isSome && hasPerm user "reports.view_org" && user.orgId == orgId then true
  else if countyId.isSome && hasPerm user "reports.view_county" && user.countyId == countyId then true
  else if currentOwnerId.isSome && hasPerm user "reports.view_queue_own"
      && some user.id == currentOwnerId then true
  else false

/-- Model of `order_by(WorkflowLog.id.desc()).first()` over a filtered list: the entry
with the greatest id (ids are primary keys, hence unique). -/
def maxById (logs : List WorkflowLog) : Option WorkflowLog :=
  logs.foldl
    (fun acc l =>
      match acc with
      | none => some l
      | some m => if l.id > m.id then some l else some m)
    none

/-- The log filter inside `_last_sender_user`: same report, `to_status` equal
to the report's current status (string comparison against the enum value),
and `action != "request_revision"`. -/
def senderLogMatch (report : Report) (l : WorkflowLog) : Bool :=
  l.reportId == report.id && l.toStatus == report.status.value
    && l.action != "request_revision"

/-- Embedding of `app/modules/reports/router.py` — `_last_sender_user`.  The Python
`(log.actor_id if log and getattr(log, "actor_id", None) else None) or
report.created_by_id` treats the integer `0` as falsy; `db.get(User, id)`
becomes a lookup in `db.users`. -/
def lastSenderUser (db : DB) (report : Report) : Option User :=
  let log := maxById (db.logs.filter (senderLogMatch report))
  let senderId :=
    match log with
    | some l => if l.actorId ≠ 0 then l.actorId else report.createdById
    | none => report.createdById
  if senderId = 0 then none
  else db.users.find? (fun u => u.id == senderId)

/-- Embedding of `app/modules/reports/router.py` — `_eligible_recipients`.  The
`try/except KeyError` around `get_recipients` becomes `Option.getD []`;
the provincial `prov_manager_review` override and the generic
`request_revision` fallback are translated with the source's control flow
(a non-qualifying sender falls through to the generic path). -/
def eligibleRecipients (db : DB) (report : Report) (action : String) : List User :=
  let recipients := (getRecipients db report action).getD []
  let special : Option (List User) :=
    if action = "request_revision" ∧ report.kind = ReportKind.provincial
        ∧ report.status = ReportStatus.provManagerReview then
      match lastSenderUser db report with
      | some sender =>
        if sender.role = Role.orgProvExpert ∧ sender.orgId = some report.orgId then
          some [sender]
        else none
      | none => none
    else none
  match special with
  | some out => out
  | none =>
    if action = "request_revision" ∧ recipients = [] then
      match lastSenderUser db report with
      | some sender => [sender]
      | none => []
    else recipients

/-- Embedding of `app/modules/reports/router.py` — `_can_act`. -/
def canAct (user : User) (report : Report) (action : String) : Bool :=
  (allowedActions user report).contains action

/-- Key lookup on a JSON object (`dict.get`): first binding wins. -/
def Json.objGet : Json → String → Option Json
  | .obj fields, key => (fields.find? (fun p => p.1 == key)).map (·.2)
  | _, _ => none

/-- Is the value a JSON object (`isinstance(x, dict)`)? -/
def Json.isObj : Json → Bool
  | .obj _ => true
  | _ => false

/-- Python `dict` assignment `d[k] = v`: replace in place when the key exists,
append otherwise (Python dicts preserve insertion order). -/
def objAssign (fields : List (String × Json)) (key : String) (v : Json) :
    List (String × Json) :=
  if fields.any (fun p => p.1 == key) then
    fields.map (fun p => if p.1 == key then (key, v) else p)
  else fields ++ [(key, v)]

/-- Assignment `d[k] = v` on a JSON value; only ever applied to objects in the source. -/
def Json.objSet : Json → String → Json → Json
  | .obj fields, key, v => .obj (objAssign fields key v)
  | j, _, _ => j

/-- Python `dict.setdefault(k, v)`. -/
def Json.setdefault (j : Json) (key : String) (v : Json) : Json :=
  match j with
  | .obj fields =>
    if fields.any (fun p => p.1 == key) then j else .obj (fields ++ [(key, v)])
  | _ => j

/-- Python truthiness of an optional JSON value (`None`, `False`, `0`, `""`,
empty list and empty dict are falsy). -/
def jTruthy : Option Json → Bool
  | none => false
  | some .null => false
  | some (.bool b) => b
  | some (.num n) => n != 0
  | some (.str s) => !s.isEmpty
  | some (.arr items) => !items.isEmpty
  | some (.obj fields) => !fields.isEmpty

/-- Python `str()` of a parsed JSON value.  Scalars are rendered exactly
(`str`/`int`/`bool`/`None`); containers get a brace-free placeholder
rendering, an approximation only reachable for malformed schemas. -/
def pyStr : Json → String
  | .str s => s
  | .num n => toString n
  | .bool true => "True"
  | .bool false => "False"
  | .null => "None"
  | .arr _ => "[...]"
  | .obj _ => "dict"

/-- Python `int()` of a JSON value (`none` = `ValueError`). -/
def pyInt : Json → Option Int
  | .num n => some n
  | .str s => s.toInt?
  | .bool true => some 1
  | .bool false => some 0
  | _ => none

/-- The default `meta` object of `load_doc`. -/
def defaultMeta : Json := .obj [("title", .str ""), ("subtitle", .str "")]

/-- The default `aggregation` object of `load_doc`/`aggregate_content`. -/
def defaultAggregation : Json :=
  .obj [("submissions", .arr []), ("by_form", .obj []), ("forms", .obj [])]

/-- The default document `load_doc` returns for empty/invalid content. -/
def defaultDoc : Json :=
  .obj [("intro_html", .str ""), ("conclusion_html", .str ""),
        ("meta", defaultMeta), ("sections", .arr []),
        ("program_sections", .arr []), ("aggregation", defaultAggregation)]

/-- Embedding of `app/utils/report_doc.py` — `load_doc` over the parsed content value
(`none` = empty string or `json.loads` failure). -/
def loadDoc : Option Json → Json
  | none => defaultDoc
  | some j =>
    -- backward compatibility: old bare-aggregation dict
    if j.isObj && (j.objGet "submissions").isSome && (j.objGet "aggregation").isNone then
      .obj [("intro_html", .str ""), ("conclusion_html", .str ""),
            ("meta", defaultMeta), ("sections", .arr []),
            ("program_sections", .arr []), ("aggregation", j)]
    else if !j.isObj then defaultDoc
    else
      let o := j.setdefault "intro_html" (.str "")
      let o := o.setdefault "conclusion_html" (.str "")
      let o := o.setdefault "meta" defaultMeta
      let o := o.setdefault "sections" (.arr [])
      let o := o.setdefault "program_sections" (.arr [])
      let o := o.setdefault "aggregation" defaultAggregation
      let o :=
        match o.objGet "meta" with
        | some (.obj mfields) =>
          o.objSet "meta"
            (((Json.obj mfields).setdefault "title" (.str "")).setdefault "subtitle" (.str ""))
        | _ => o.objSet "meta" defaultMeta
      let o :=
        match o.objGet "sections" with
        | some (.arr _) => o
        | _ => o.objSet "sections" (.arr [])
      let o :=
        match o.objGet "program_sections" with
        | some (.arr _) => o
        | _ => o.objSet "program_sections" (.arr [])
      let o :=
        match o.objGet "aggregation" with
        | some (.obj _) => o
        | _ => o.objSet "aggregation" defaultAggregation
      o

/-- Embedding of `app/utils/schema.py` — `parse_schema` over the parsed text
(non-dicts and parse failures collapse to `{}`). -/
def parseSchema : Option Json → Json
  | some (.obj fields) => .obj fields
  | _ => .obj []

/-- The `fields` list a schema exposes, as read by `_label_map`/`_field_map`:
`s.get("fields")` when the schema is a dict, and only when it is a list. -/
def schemaFieldsList (s : Json) : Option (List Json) :=
  match s with
  | .obj _ =>
    match s.objGet "fields" with
    | some (.arr items) => some items
    | _ => none
  | _ => some []

/-- Embedding of `app/utils/report_agg.py` — `_label_map` (keyed dict built with
assignment, later duplicates overwrite). -/
def labelMap (schemaJson : Option Json) : Json :=
  let s := parseSchema schemaJson
  match schemaFieldsList s with
  | none => .obj []
  | some fields =>
    .obj (fields.foldl
      (fun acc f =>
        match f with
        | .obj _ =>
          if jTruthy (f.objGet "name") then
            let name := pyStr ((f.objGet "name").getD .null)
            let label :=
              if jTruthy (f.objGet "label") then (f.objGet "label").getD .null
              else (f.objGet "name").getD .null
            objAssign acc name (.str (pyStr label))
          else acc
        | _ => acc) [])

/-- Embedding of `app/utils/report_agg.py` — `_field_map`. -/
def fieldMap (schema : Json) : Json :=
  match schemaFieldsList schema with
  | none => .obj []
  | some fields =>
    .obj (fields.foldl
      (fun acc f =>
        match f with
        | .obj _ =>
          if jTruthy (f.objGet "name") then
            let name := pyStr ((f.objGet "name").getD .null)
            let label :=
              if jTruthy (f.objGet "label") then (f.objGet "label").getD .null
              else (f.objGet "name").getD .null
            let ftype :=
              if jTruthy (f.objGet "type") then (f.objGet "type").getD .null
              else .str "text"
            objAssign acc name
              (.obj [("name", .str name), ("label", .str (pyStr label)),
                     ("type", .str (pyStr ftype).toLower)])
          else acc
        | _ => acc) [])

/-- Helper `norm_cols` inside `build_layout_blueprint`. -/
def normCols (v : Json) : Int :=
  let c := (pyInt v).getD 2
  if c < 1 then 1 else if c > 3 then 3 else c

/-- Chunking of `field_names` into rows of two for the auto layout. -/
def chunkPairs : List String → List (List String)
  | [] => []
  | [a] => [[a]]
  | a :: b :: rest => [a, b] :: chunkPairs rest

/-- Pad a list of names with `""` to exactly `cols` entries
(`(names[:cols] + [""] * cols)[:cols]`). -/
def padNames (names : List String) (cols : Nat) : List String :=
  let taken := names.take cols
  taken ++ List.replicate (cols - taken.length) ""

/-- Embedding of `app/utils/schema.py` — `build_layout_blueprint`. -/
def buildLayoutBlueprint (schema : Json) : Json :=
  if !schema.isObj then .arr []
  else
    let fieldsRaw :=
      if jTruthy (schema.objGet "fields") then (schema.objGet "fields").getD .null
      else .arr []
    let fieldsList := match fieldsRaw with | .arr items => items | _ => []
    let fieldNames := fieldsList.foldl
      (fun acc f =>
        match f with
        | .obj _ =>
          if jTruthy (f.objGet "name") then acc ++ [pyStr ((f.objGet "name").getD .null)]
          else acc
        | _ => acc) []
    let layout := match schema.objGet "layout" with | some (.arr items) => items | _ => []
    let start : List Json × List String :=
      if !layout.isEmpty then
        layout.foldl
          (fun acc r =>
            match r with
            | .obj _ =>
              let cols := normCols
                (if jTruthy (r.objGet "columns") then (r.objGet "columns").getD .null
                 else .num 2)
              let namesRaw :=
                if jTruthy (r.objGet "fields") then (r.objGet "fields").getD .null
                else .arr []
              let namesL := match namesRaw with | .arr items => items | _ => []
              let names := namesL.map (fun x => match x with | .null => "" | _ => pyStr x)
              let names := padNames names cols.toNat
              (acc.1 ++ [Json.obj [("columns", .num cols), ("fields", .arr (names.map Json.str))]],
               acc.2 ++ names.filter (fun n => !n.isEmpty))
            | _ => acc)
          ([], [])
      else ([], [])
    let auto : List Json × List String :=
      if start.1.isEmpty && !fieldNames.isEmpty then
        (start.1 ++ (chunkPairs fieldNames).map
            (fun c =>
              Json.obj [("columns", .num 2),
                        ("fields", .arr ((padNames c 2).map Json.str))]),
         start.2 ++ fieldNames.filter (fun n => !n.isEmpty))
      else start
    let final : List Json × List String :=
      fieldNames.foldl
        (fun acc n =>
          if !n.isEmpty && !acc.2.contains n then
            (acc.1 ++ [Json.obj [("columns", .num 1), ("fields", .arr [.str n])]],
             acc.2 ++ [n])
          else acc)
        auto
    .arr final.1

/-- First-occurrence de-duplication of a list of ids.  Python builds these as
`list({...})`/dict keys, whose iteration order the language does not fix; we
fix the first-occurrence order, which only affects JSON object key order. -/
def dedupNat (l : List Nat) : List Nat :=
  l.foldl (fun acc n => if acc.contains n then acc else acc ++ [n]) []

/-- Embedding of `app/modules/reports/router.py` — `_linked_submission_ids`. -/
def linkedSubmissionIds (db : DB) (reportId : Nat) : List Nat :=
  (db.reportSubmissions.filter (fun l => l.reportId == reportId)).map (·.submissionId)

/-- The per-submission item built inside `aggregate_content`. -/
def submissionItem (forms : List FormTemplate) (s : Submission) : Json :=
  let payload := s.payload.getD (.obj [])
  let title :=
    match forms.find? (fun f => f.id == s.formId) with
    | some f => f.title
    | none => "form#" ++ toString s.formId
  .obj [("id", .num s.id), ("form_id", .num s.formId),
        ("form_title", .str title), ("payload", payload)]

/-- Embedding of `app/utils/report_agg.py` — `aggregate_content`. -/
def aggregateContent (db : DB) (reportId : Nat) : Json :=
  let subIds := linkedSubmissionIds db reportId
  if subIds.isEmpty then defaultAggregation
  else
    let subs := db.submissions.filter (fun s => subIds.contains s.id)
    let formIds := dedupNat (subs.map (·.formId))
    let forms := db.formTemplates.filter (fun f => formIds.contains f.id)
    let formsMeta : List (String × Json) := forms.map
      (fun f =>
        let schema := parseSchema f.schemaJson
        (toString f.id,
         Json.obj [("title", .str f.title), ("labels", labelMap f.schemaJson),
                   ("layout", buildLayoutBlueprint schema), ("fields", fieldMap schema)]))
    let subItems := subs.map (submissionItem forms)
    let byForm : List (String × Json) := (dedupNat (subs.map (·.formId))).map
      (fun fid =>
        (toString fid,
         Json.arr ((subs.filter (fun s => s.formId == fid)).map (submissionItem forms))))
    .obj [("submissions", .arr subItems), ("by_form", .obj byForm),
          ("forms", .obj formsMeta)]

/-- Embedding of `app/modules/reports/router.py` — `_sync_sections`. -/
def syncSections (doc : Json) (linkedIds : List Nat) : Json :=
  let sections :=
    match doc with
    | .obj _ =>
      match doc.objGet "sections" with
      | some (.arr items) => items
      | _ => []
    | _ => []
  let sections := sections.filter
    (fun s =>
      match s with
      | .obj _ =>
        match s.objGet "submission_id" with
        | some (.num n) => linkedIds.any (fun i => (i : Int) == n)
        | _ => false
      | _ => false)
  let sections :=
    if sections.isEmpty && !linkedIds.isEmpty then
      linkedIds.map (fun sid =>
        Json.obj [("submission_id", .num sid), ("description_html", .str "")])
    else sections
  doc.objSet "sections" (.arr sections)

/-- The content rewrite performed by `do_action` (router lines 1414-1418):
reload the document, recompute its aggregation, re-sync its sections and
store the dump back into `content_json`. -/
def updatedContent (db : DB) (report : Report) : Json :=
  syncSections
    ((loadDoc report.contentJson).objSet "aggregation" (aggregateContent db report.id))
    (linkedSubmissionIds db report.id)

/-- The failure modes of `do_action` (`require`/`KeyError` exits, in source
order). -/
inductive ActionError where
  | notFound           -- 404: report does not exist
  | notVisible         -- 403: can_view_report failed
  | notAllowed         -- 403: _can_act failed
  | noRecipient        -- 400: no eligible recipient for a non-final action
  | invalidRecipient   -- 400: supplied recipient outside the eligible set
  | unknownTransition  -- uncaught KeyError from get_transition
deriving DecidableEq, Repr

/-- The outcome of a successful `do_action`: the mutated report, the appended
workflow-log row and the notifications created (in creation order). -/
structure ActionResult where
  report : Report
  log : WorkflowLog
  notifications : List Notification

/-- Auto-increment id for the appended workflow-log row. -/
def newLogId (db : DB) : Nat :=
  (db.logs.foldl (fun m l => max m l.id) 0) + 1

/-- Embedding of `app/modules/reports/router.py` — `do_action` (the `/action` endpoint),
minus HTTP plumbing.  `recipientId` is the already-parsed optional form field
(`int(recipient_id) if recipient_id.strip().isdigit() else None`). -/
def doAction (db : DB) (user : User) (reportId : Nat) (action : String)
    (recipientId : Option Nat) (comment : String) : Except ActionError ActionResult :=
  match db.reports.find? (fun r => r.id == reportId) with
  | none => .error .notFound
  | some r =>
    if !canViewReport user (some r.orgId) r.countyId r.currentOwnerId then
      .error .notVisible
    else if !canAct user r action then .error .notAllowed
    else
      let recipients := eligibleRecipients db r action
      if action = "final_approve" then
        match getTransition r.kind r.status action with
        | none => .error .unknownTransition
        | some t =>
          let r' := { r with status := t.toStatus, currentOwnerId := none,
                             contentJson := some (updatedContent db r) }
          .ok { report := r',
                log := { id := newLogId db, reportId := r.id, actorId := user.id,
                         fromStatus := r.status.value, toStatus := t.toStatus.value,
                         action := action, comment := comment },
                notifications :=
                  [{ userId := r.createdById, reportId := some r.id, type := "final",
                     message := "گزارش #" ++ toString r.id ++ " تأیید نهایی شد.",
                     isRead := false }] }
      else
        match recipients with
        | [] => .error .noRecipient
        | r0 :: _ =>
          let rid := recipientId.getD r0.id
          if !recipients.any (fun u => u.id == rid) then .error .invalidRecipient
          else
            match getTransition r.kind r.status action with
            | none => .error .unknownTransition
            | some t =>
              let r' := { r with status := t.toStatus, currentOwnerId := some rid,
                                 contentJson := some (updatedContent db r) }
              .ok { report := r',
                    log := { id := newLogId db, reportId := r.id, actorId := user.id,
                             fromStatus := r.status.value, toStatus := t.toStatus.value,
                             action := action, comment := comment },
                    notifications :=
                      { userId := rid, reportId := some r.id, type := "report",
                        message := "گزارش #" ++ toString r.id ++ " برای شما ارسال شد.",
                        isRead := false } ::
                      (if action = "request_revision" then
                        [{ userId := user.id, reportId := some r.id, type := "info",
                           message := "برای گزارش #" ++ toString r.id
                             ++ " نیاز به اصلاح اعلام شد و برای اصلاح برگشت داده شد.",
                           isRead := false }]
                      else []) }

/-! ### Derived notions used by the theorems -/

/-- One `request_revision` edge of the transition table for kind `k`. -/
def revStep (k : ReportKind) (s s' : ReportStatus) : Prop :=
  ∃ t ∈ TRANSITIONS, t.kind = k ∧ t.fromStatus = s ∧ t.action = "request_revision"
    ∧ t.toStatus = s'

instance (k : ReportKind) (s s' : ReportStatus) : Decidable (revStep k s s') := by
  unfold revStep; infer_instance

/-- The status reached by one action, at the transition-table level. -/
def stepStatus (k : ReportKind) (s : ReportStatus) (a : String) : Option ReportStatus :=
  (getTransition k s a).map (·.toStatus)

lemma transMatch_iff (k : ReportKind) (s : ReportStatus) (a : String) (t : Transition) :
    transMatch k s a t = true ↔ (t.kind = k ∧ t.fromStatus = s ∧ t.action = a) := by
  simp [transMatch, Bool.and_eq_true, and_assoc]

/-! ### Theorems -/

/-- Claim C4: In the county transition table, each of `county_manager_review`,
`prov_expert_review` and `prov_manager_review` has a `request_revision` edge
stepping back exactly one tier (to `needs_revision`, `county_manager_review`
and `prov_expert_review` respectively, and these are the only such edges),
so `needs_revision` is reachable from each of them through `request_revision`
edges; the provincial chain has the symmetric one-tier-back
`request_revision` edges. -/
theorem county_revision_steps_back_one_tier :
    revStep .county .countyManagerReview .needsRevision ∧
    revStep .county .provExpertReview .countyManagerReview ∧
    revStep .county .provManagerReview .provExpertReview ∧
    ((TRANSITIONS.filter (fun t => t.kind == ReportKind.county
        && t.action == "request_revision")).map
      (fun t => (t.fromStatus, t.toStatus)) =
      [(.countyManagerReview, .needsRevision),
       (.provExpertReview, .countyManagerReview),
       (.provManagerReview, .provExpertReview)]) ∧
    Relation.ReflTransGen (revStep .county) .countyManagerReview .needsRevision ∧
    Relation.ReflTransGen (revStep .county) .provExpertReview .needsRevision ∧
    Relation.ReflTransGen (revStep .county) .provManagerReview .needsRevision ∧
    revStep .provincial .provManagerReview .needsRevision ∧
    revStep .provincial .secretariatUserReview .provManagerReview ∧
    revStep .provincial .secretariatAdminReview .secretariatUserReview := by
  have e1 : revStep .county .countyManagerReview .needsRevision := by decide
  have e2 : revStep .county .provExpertReview .countyManagerReview := by decide
  have e3 : revStep .county .provManagerReview .provExpertReview := by decide
  refine ⟨e1, e2, e3, by decide, .single e1, .head e2 (.single e1),
    .head e3 (.head e2 (.single e1)), by decide, by decide, by decide⟩

/-- Claim C9: From `draft`, `submit_for_review` then `request_revision` then
`submit_for_review` returns to the same reviewer status reached the first
time: `county_manager_review` for county and `prov_manager_review` for
provincial reports. -/
theorem revision_round_trip :
    stepStatus .county .draft "submit_for_review" = some .countyManagerReview ∧
    stepStatus .county .countyManagerReview "request_revision" = some .needsRevision ∧
    stepStatus .county .needsRevision "submit_for_review" = some .countyManagerReview ∧
    stepStatus .provincial .draft "submit_for_review" = some .provManagerReview ∧
    stepStatus .provincial .provManagerReview "request_revision" = some .needsRevision ∧
    stepStatus .provincial .needsRevision "submit_for_review" = some .provManagerReview := by
  decide

lemma mem_actions_foldl (k : ReportKind) (s : ReportStatus) :
    ∀ (l : List Transition) (acc : List String) (a : String),
      a ∈ l.foldl
        (fun acc t =>
          if t.kind = k ∧ t.fromStatus = s ∧ t.action ∉ acc then acc ++ [t.action]
          else acc) acc →
      a ∈ acc ∨ ∃ t ∈ l, t.kind = k ∧ t.fromStatus = s ∧ t.action = a := by
  intro l
  induction l with
  | nil => intro acc a h; exact Or.inl h
  | cons t rest ih =>
    intro acc a h
    rcases ih _ a h with h' | ⟨t', ht', e⟩
    · simp only [] at h'
      by_cases hc : t.kind = k ∧ t.fromStatus = s ∧ t.action ∉ acc
      · rw [if_pos hc] at h'
        rcases List.mem_append.mp h' with h'' | h''
        · exact Or.inl h''
        · have ha : a = t.action := by simpa using h''
          exact Or.inr ⟨t, List.mem_cons_self t rest, hc.1, hc.2.1, ha.symm⟩
      · rw [if_neg hc] at h'
        exact Or.inl h'
    · exact Or.inr ⟨t', List.mem_cons_of_mem t ht', e⟩

lemma getTransition_isSome_of_edge {k : ReportKind} {s : ReportStatus} {a : String}
    (h : ∃ t ∈ TRANSITIONS, t.kind = k ∧ t.fromStatus = s ∧ t.action = a) :
    (getTransition k s a).isSome = true := by
  obtain ⟨t, ht, he⟩ := h
  have hsome : (TRANSITIONS.find? (transMatch k s a)).isSome :=
    List.find?_isSome.mpr ⟨t, ht, (transMatch_iff k s a t).mpr he⟩
  unfold getTransition
  cases hf : TRANSITIONS.find? (transMatch k s a) with
  | some t' => rfl
  | none => rw [hf] at hsome; simp at hsome

/-- Claim C5: the lookup `get_transition` fails exactly when the table has no matching
edge, except for the legacy alias: a provincial report at
`secretariat_review` resolves `final_approve` (to `final_approved`, no
recipients) and `request_revision` (to `prov_manager_review`, recipient role
`province_manager`); consequently every action exposed by
`allowed_actions_for_status` has a succeeding `get_transition`. -/
theorem get_transition_totality :
    (∀ (k : ReportKind) (s : ReportStatus) (a : String),
      getTransition k s a = none ↔
        ((∀ t ∈ TRANSITIONS, ¬(t.kind = k ∧ t.fromStatus = s ∧ t.action = a)) ∧
         ¬(k = ReportKind.provincial ∧ s = ReportStatus.secretariatReview ∧
           (a = "final_approve" ∨ a = "request_revision")))) ∧
    getTransition .provincial .secretariatReview "final_approve" =
      some ⟨.provincial, .secretariatReview, "final_approve", .finalApproved, []⟩ ∧
    getTransition .provincial .secretariatReview "request_revision" =
      some ⟨.provincial, .secretariatReview, "request_revision", .provManagerReview,
            [Role.orgProvManager]⟩ ∧
    (∀ (k : ReportKind) (s : ReportStatus) (a : String),
      a ∈ allowedActionsForStatus k s → (getTransition k s a).isSome = true) := by
  refine ⟨?_, by decide, by decide, ?_⟩
  · intro k s a
    constructor
    · intro h
      unfold getTransition at h
      cases hf : TRANSITIONS.find? (transMatch k s a) with
      | some t => rw [hf] at h; cases h
      | none =>
        rw [hf] at h
        refine ⟨?_, ?_⟩
        · intro t ht hc
          exact List.find?_eq_none.mp hf t ht ((transMatch_iff k s a t).mpr hc)
        · rintro ⟨hk, hs, ha⟩
          subst hk; subst hs
          rcases ha with ha | ha <;> subst ha <;> simp at h
    · rintro ⟨hall, hleg⟩
      have hf : TRANSITIONS.find? (transMatch k s a) = none := by
        refine List.find?_eq_none.mpr ?_
        intro t ht hm
        exact hall t ht ((transMatch_iff k s a t).mp hm)
      unfold getTransition
      rw [hf]
      by_cases h1 : k = ReportKind.provincial ∧ s = ReportStatus.secretariatReview
      · rcases h1 with ⟨hk, hs⟩
        subst hk; subst hs
        have hfa : a ≠ "final_approve" := fun h => hleg ⟨rfl, rfl, Or.inl h⟩
        have hrr : a ≠ "request_revision" := fun h => hleg ⟨rfl, rfl, Or.inr h⟩
        simp [hfa, hrr]
      · simp [h1]
  · intro k s a ha
    unfold allowedActionsForStatus at ha
    by_cases hleg : k = ReportKind.provincial ∧ s = ReportStatus.secretariatReview
    · rw [if_pos hleg] at ha
      rcases List.mem_append.mp ha with ha' | ha'
      · rcases mem_actions_foldl k s TRANSITIONS [] a ha' with h0 | hedge
        · cases h0
        · exact getTransition_isSome_of_edge hedge
      · rcases hleg with ⟨hk, hs⟩
        subst hk; subst hs
        have : a = "final_approve" ∨ a = "request_revision" := by simpa using ha'
        rcases this with ha'' | ha'' <;> subst ha'' <;> decide
    · rw [if_neg hleg] at ha
      rcases mem_actions_foldl k s TRANSITIONS [] a ha with h0 | hedge
      · cases h0
      · exact getTransition_isSome_of_edge hedge

/-- Witness for `get_transition_totality`: the legacy status exposes
`final_approve`, and `get_transition` indeed succeeds on it. -/
theorem get_transition_totality_witness :
    (getTransition ReportKind.provincial ReportStatus.secretariatReview
      "final_approve").isSome = true :=
  get_transition_totality.2.2.2 ReportKind.provincial ReportStatus.secretariatReview
    "final_approve" (by decide)

/-- Claim C2: the gate `allowed_actions` is empty on a final-approved report and for any
user other than the current owner; with a non-empty role whitelist it is
empty for users whose role is outside it; otherwise it equals
`allowed_actions_for_status`. -/
theorem allowed_actions_gate (u : User) (r : Report) :
    (r.status = ReportStatus.finalApproved → allowedActions u r = []) ∧
    (r.currentOwnerId ≠ some u.id → allowedActions u r = []) ∧
    (roleAllowed r.kind r.status ≠ [] → u.role ∉ roleAllowed r.kind r.status →
      allowedActions u r = []) ∧
    (r.status ≠ ReportStatus.finalApproved → r.currentOwnerId = some u.id →
      (roleAllowed r.kind r.status = [] ∨ u.role ∈ roleAllowed r.kind r.status) →
      allowedActions u r = allowedActionsForStatus r.kind r.status) := by
  refine ⟨?_, ?_, ?_, ?_⟩
  · intro h; simp [allowedActions, h]
  · intro h; simp [allowedActions, h]
  · intro h1 h2
    unfold allowedActions
    split
    · rfl
    · split
      · rfl
      · simp [h1, h2]
  · intro h1 h2 h3
    unfold allowedActions
    rw [if_neg h1, if_neg (by simp [h2])]
    have : ¬(roleAllowed r.kind r.status ≠ [] ∧ u.role ∉ roleAllowed r.kind r.status) := by
      rcases h3 with h3 | h3
      · simp [h3]
      · simp [h3]
    rw [if_neg this]

/-- Witness for `allowed_actions_gate`: a county manager owning a county
report under review gets exactly the status-derived actions. -/
theorem allowed_actions_gate_witness :
    allowedActions ⟨12, .orgCountyManager, some 5, some 12, true⟩
        ⟨2, 5, some 12, 11, some 12, .county, .countyManagerReview, none⟩ =
      allowedActionsForStatus ReportKind.county ReportStatus.countyManagerReview :=
  (allowed_actions_gate ⟨12, .orgCountyManager, some 5, some 12, true⟩
      ⟨2, 5, some 12, 11, some 12, .county, .countyManagerReview, none⟩).2.2.2
    (by decide) (by decide) (Or.inr (by decide))

/-- Input on which the C8 claim fails: a `(kind, status)` pair absent from
the `editable` table, where `can_edit` returns `true` although the user's
role is not in the (empty) whitelist. -/
def c8User : User := ⟨20, .secretariatUser, some 1, none, true⟩

/-- County report sitting (hypothetically) at `secretariat_user_review`,
owned by `c8User`. -/
def c8Report : Report := ⟨3, 1, none, 7, some 20, .county, .secretariatUserReview, none⟩

/-- Claim C8 counterexample: The current owner of a non-final report can edit
even though their role is not in the editable-role whitelist for the
report's `(kind, status)` — the whitelist for this pair is empty and
`can_edit` then allows every role, contradicting the claim that editing
requires whitelist membership. -/
theorem can_edit_true_outside_whitelist :
    c8Report.currentOwnerId = some c8User.id ∧
    c8Report.status ≠ ReportStatus.finalApproved ∧
    editableRoles c8Report.kind c8Report.status = [] ∧
    c8User.role ∉ editableRoles c8Report.kind c8Report.status ∧
    canEdit c8User c8Report = true := by decide

/-- Claim C8 amended: the predicate `can_edit` is false for non-owners and on final-approved
reports; otherwise it is true iff the editable-role whitelist for
`(kind, status)` is empty or contains the user's role. -/
theorem can_edit_characterization (u : User) (r : Report) :
    (r.currentOwnerId ≠ some u.id → canEdit u r = false) ∧
    (r.status = ReportStatus.finalApproved → canEdit u r = false) ∧
    (r.currentOwnerId = some u.id → r.status ≠ ReportStatus.finalApproved →
      (canEdit u r = true ↔
        (editableRoles r.kind r.status = [] ∨ u.role ∈ editableRoles r.kind r.status))) := by
  refine ⟨?_, ?_, ?_⟩
  · intro h; simp [canEdit, h]
  · intro h
    simp [canEdit, h]
  · intro h1 h2
    unfold canEdit
    rw [if_neg (by simp [h1]), if_neg h2]
    simp

/-- Witness for `can_edit_characterization`: the county-expert owner of a
draft county report may edit it. -/
theorem can_edit_characterization_witness :
    canEdit ⟨11, .orgCountyExpert, some 5, some 12, true⟩
        ⟨2, 5, some 12, 11, some 11, .county, .draft, none⟩ = true :=
  ((can_edit_characterization ⟨11, .orgCountyExpert, some 5, some 12, true⟩
      ⟨2, 5, some 12, 11, some 11, .county, .draft, none⟩).2.2
    (by decide) (by decide)).mpr (Or.inr (by decide))

/-- C1 counterexample data: the user (a county expert) who last forwarded
the provincial report up into `prov_manager_review`. -/
def c1Sender : User := ⟨7, .orgCountyExpert, some 1, some 3, true⟩

/-- C1 counterexample data: another county expert of the same org. -/
def c1Other : User := ⟨8, .orgCountyExpert, some 1, some 4, true⟩

/-- C1 counterexample data: provincial report at `prov_manager_review`. -/
def c1Report : Report := ⟨1, 1, none, 7, some 9, .provincial, .provManagerReview, none⟩

/-- C1 counterexample data: the workflow-log entry by which `c1Sender`
forwarded the report into its current status (a county expert may forward a
provincial report out of `needs_revision`, which the `role_allowed` table
permits). -/
def c1Log : WorkflowLog :=
  ⟨1, 1, 7, "needs_revision", "prov_manager_review", "submit_for_review", ""⟩

/-- C1 counterexample data: the database. -/
def c1DB : DB := ⟨[c1Sender, c1Other], [c1Report], [c1Log], [], [], []⟩

/-- Claim C1 counterexample: For a provincial report at `prov_manager_review`
whose last upward sender is not a provincial expert, `request_revision`
recipients are the generic role-based set (here two county experts), not the
single last sender: the special-case override only fires when the resolved
sender is a provincial expert of the report's org. -/
theorem prov_manager_revision_can_use_generic_set :
    c1Report.kind = ReportKind.provincial ∧
    c1Report.status = ReportStatus.provManagerReview ∧
    lastSenderUser c1DB c1Report = some c1Sender ∧
    eligibleRecipients c1DB c1Report "request_revision" = [c1Sender, c1Other] ∧
    [c1Sender, c1Other] ≠ [c1Sender] := by decide

/-- Claim C1 amended: For a provincial report at `prov_manager_review`, when
the last non-revision sender into the current status resolves to a user who
is a provincial expert of the report's org, `request_revision` recipients
are exactly that single user; otherwise the generic role-based set applies,
with the empty-set fallback to the last sender. -/
theorem prov_manager_revision_recipients (db : DB) (r : Report)
    (hk : r.kind = ReportKind.provincial)
    (hs : r.status = ReportStatus.provManagerReview)
    (sender : User) (hsend : lastSenderUser db r = some sender) :
    (sender.role = Role.orgProvExpert ∧ sender.orgId = some r.orgId →
      eligibleRecipients db r "request_revision" = [sender]) ∧
    (¬(sender.role = Role.orgProvExpert ∧ sender.orgId = some r.orgId) →
      eligibleRecipients db r "request_revision" =
        (if (getRecipients db r "request_revision").getD [] = [] then [sender]
         else (getRecipients db r "request_revision").getD [])) := by
  constructor
  · intro hq
    simp only [eligibleRecipients, hsend]
    rw [if_pos ⟨trivial, hk, hs⟩, if_pos hq]
  · intro hq
    simp only [eligibleRecipients, hsend]
    rw [if_pos ⟨trivial, hk, hs⟩, if_neg hq]
    by_cases he : (getRecipients db r "request_revision").getD [] = []
    · rw [if_pos he, if_pos ⟨trivial, he⟩]
    · rw [if_neg he, if_neg (by simp [he])]

/-- Witness for `prov_manager_revision_recipients`: with a provincial-expert
sender on record, the override returns exactly that sender. -/
theorem prov_manager_revision_recipients_witness :
    eligibleRecipients
        ⟨[⟨5, .orgProvExpert, some 1, none, true⟩], [c1Report],
         [⟨2, 1, 5, "draft", "prov_manager_review", "submit_for_review", ""⟩],
         [], [], []⟩
        c1Report "request_revision" = [⟨5, .orgProvExpert, some 1, none, true⟩] :=
  (prov_manager_revision_recipients
      ⟨[⟨5, .orgProvExpert, some 1, none, true⟩], [c1Report],
       [⟨2, 1, 5, "draft", "prov_manager_review", "submit_for_review", ""⟩],
       [], [], []⟩
      c1Report (by decide) (by decide)
      ⟨5, .orgProvExpert, some 1, none, true⟩ (by decide)).1 (by decide)

/-- The concatenation, per role in declaration order, inside
`get_recipients` before de-duplication. -/
def recipientPool (db : DB) (r : Report) (roles : List Role) : List User :=
  roles.foldl (fun acc role => acc ++ usersByRole db role r) []

lemma dedupById_sublist (seen : List Nat) (l : List User) :
    (dedupById seen l).Sublist l := by
  induction l generalizing seen with
  | nil => simp [dedupById]
  | cons u rest ih =>
    unfold dedupById
    by_cases h : u.id ∈ seen
    · rw [if_pos h]; exact (ih seen).cons u
    · rw [if_neg h]; exact (ih (u.id :: seen)).cons₂ u

lemma dedupById_ids_nodup (seen : List Nat) (l : List User) :
    ((dedupById seen l).map User.id).Nodup ∧
      ∀ i ∈ (dedupById seen l).map User.id, i ∉ seen := by
  induction l generalizing seen with
  | nil => simp [dedupById]
  | cons u rest ih =>
    unfold dedupById
    by_cases h : u.id ∈ seen
    · rw [if_pos h]; exact ih seen
    · rw [if_neg h]
      obtain ⟨hn, hs⟩ := ih (u.id :: seen)
      refine ⟨?_, ?_⟩
      · simp only [List.map_cons, List.nodup_cons]
        exact ⟨fun hmem => (hs _ hmem) (List.mem_cons_self _ _), hn⟩
      · intro i hi
        rcases List.mem_cons.mp hi with rfl | hi'
        · exact h
        · intro hin
          exact (hs _ hi') (List.mem_cons_of_mem _ hin)

lemma dedupById_covers (seen : List Nat) (l : List User) :
    ∀ u ∈ l, u.id ∈ seen ∨ ∃ v ∈ dedupById seen l, v.id = u.id := by
  induction l generalizing seen with
  | nil => simp
  | cons w rest ih =>
    intro u hu
    unfold dedupById
    by_cases h : w.id ∈ seen
    · rw [if_pos h]
      rcases List.mem_cons.mp hu with he | hu'
      · rw [he]; exact Or.inl h
      · exact ih seen u hu'
    · rw [if_neg h]
      rcases List.mem_cons.mp hu with he | hu'
      · exact Or.inr ⟨w, List.mem_cons_self _ _, by rw [he]⟩
      · rcases ih (w.id :: seen) u hu' with hin | ⟨v, hv, hvid⟩
        · rcases List.mem_cons.mp hin with he | hin'
          · exact Or.inr ⟨w, List.mem_cons_self _ _, he.symm⟩
          · exact Or.inl hin'
        · exact Or.inr ⟨v, List.mem_cons_of_mem _ hv, hvid⟩

/-- C7 counterexample data: a deactivated secretariat user. -/
def c7Inactive : User := ⟨30, .secretariatUser, some 9, none, false⟩

/-- C7 counterexample data: provincial report at `prov_manager_review`,
whose `approve` edge routes to the `secretariat_user` role. -/
def c7Report : Report := ⟨4, 1, none, 7, some 9, .provincial, .provManagerReview, none⟩

/-- C7 counterexample data: the database holds only the inactive user. -/
def c7DB : DB := ⟨[c7Inactive], [c7Report], [], [], [], []⟩

/-- Claim C7 counterexample: the resolver `get_recipients` resolves a secretariat role to
every user carrying it with no active-status filter: the only
`secretariat_user` in the directory is deactivated, the set of active
holders of the role is empty, yet the resolver still returns the inactive
user. -/
theorem get_recipients_ignores_is_active :
    c7Inactive.isActive = false ∧
    getRecipients c7DB c7Report "approve" = some [c7Inactive] ∧
    c7DB.users.filter (fun u => u.role == Role.secretariatUser && u.isActive) = [] := by
  decide

/-- Claim C7 amended: the resolver `get_recipients` returns the per-role user lists
concatenated in the edge's role-declaration order and de-duplicated by user
id (first occurrence kept, order preserved, no id lost); secretariat roles
resolve globally to every user holding the role (active or not), other
roles are filtered to the report's org, and county-tier roles additionally
to the report's county unless `county_id` is null, in which case all
county-tier users of the org are eligible. -/
theorem get_recipients_characterization (db : DB) (r : Report) (a : String)
    (t : Transition) (ht : getTransition r.kind r.status a = some t)
    (hne : t.recipientRoles ≠ []) :
    getRecipients db r a =
      some (dedupById [] (recipientPool db r t.recipientRoles)) ∧
    (dedupById [] (recipientPool db r t.recipientRoles)).Sublist
      (recipientPool db r t.recipientRoles) ∧
    ((dedupById [] (recipientPool db r t.recipientRoles)).map User.id).Nodup ∧
    (∀ u ∈ recipientPool db r t.recipientRoles,
      ∃ v ∈ dedupById [] (recipientPool db r t.recipientRoles), v.id = u.id) ∧
    (∀ role, role = Role.secretariatUser ∨ role = Role.secretariatAdmin →
      usersByRole db role r = db.users.filter (fun u => u.role == role)) ∧
    (∀ role, role = Role.orgProvExpert ∨ role = Role.orgProvManager →
      usersByRole db role r =
        db.users.filter (fun u => u.role == role && u.orgId == some r.orgId)) ∧
    (∀ role cid, (role = Role.orgCountyExpert ∨ role = Role.orgCountyManager) →
      r.countyId = some cid →
      usersByRole db role r =
        db.users.filter
          (fun u => u.role == role && u.orgId == some r.orgId
            && u.countyId == some cid)) ∧
    (∀ role, (role = Role.orgCountyExpert ∨ role = Role.orgCountyManager) →
      r.countyId = none →
      usersByRole db role r =
        db.users.filter (fun u => u.role == role && u.orgId == some r.orgId)) := by
  refine ⟨?_, dedupById_sublist [] _, (dedupById_ids_nodup [] _).1, ?_, ?_, ?_, ?_, ?_⟩
  · unfold getRecipients
    rw [ht]
    simp [hne, recipientPool]
  · intro u hu
    rcases dedupById_covers [] (recipientPool db r t.recipientRoles) u hu with h0 | h
    · cases h0
    · exact h
  · rintro role (rfl | rfl) <;> simp [usersByRole]
  · rintro role (rfl | rfl)
    · unfold usersByRole
      rw [if_neg (by simp), if_neg (by simp), List.filter_filter]
      refine List.filter_congr ?_
      intro x _
      exact Bool.and_comm _ _
    · unfold usersByRole
      rw [if_neg (by simp), if_neg (by simp), List.filter_filter]
      refine List.filter_congr ?_
      intro x _
      exact Bool.and_comm _ _
  · rintro role cid (rfl | rfl) hc <;>
    · unfold usersByRole
      rw [if_neg (by simp), if_pos (by simp), hc]
      simp only [List.filter_filter]
      refine List.filter_congr ?_
      intro x _
      simp [Bool.and_comm, Bool.and_left_comm, Bool.and_assoc]
  · rintro role (rfl | rfl) hc <;>
    · unfold usersByRole
      rw [if_neg (by simp), if_pos (by simp), hc]
      simp only [List.filter_filter]
      refine List.filter_congr ?_
      intro x _
      exact Bool.and_comm _ _

/-- Witness for `get_recipients_characterization`: the county `draft` submit
edge routes to the org- and county-scoped county managers, deduplicated. -/
theorem get_recipients_characterization_witness :
    getRecipients ⟨[⟨12, .orgCountyManager, some 5, some 12, true⟩], [], [], [], [], []⟩
        ⟨2, 5, some 12, 11, some 11, .county, .draft, none⟩ "submit_for_review" =
      some (dedupById []
        (recipientPool ⟨[⟨12, .orgCountyManager, some 5, some 12, true⟩], [], [], [], [], []⟩
          ⟨2, 5, some 12, 11, some 11, .county, .draft, none⟩ [Role.orgCountyManager])) :=
  (get_recipients_characterization
      ⟨[⟨12, .orgCountyManager, some 5, some 12, true⟩], [], [], [], [], []⟩
      ⟨2, 5, some 12, 11, some 11, .county, .draft, none⟩ "submit_for_review"
      ⟨.county, .draft, "submit_for_review", .countyManagerReview, [.orgCountyManager]⟩
      (by decide) (by decide)).1

lemma maxById_go_mem (l : List WorkflowLog) :
    ∀ (acc : Option WorkflowLog) (x : WorkflowLog),
      l.foldl
        (fun acc l =>
          match acc with
          | none => some l
          | some m => if l.id > m.id then some l else some m) acc = some x →
      acc = some x ∨ x ∈ l := by
  induction l with
  | nil => intro acc x h; exact Or.inl h
  | cons a rest ih =>
    intro acc x h
    rcases ih _ x h with h' | h'
    · match acc, h' with
      | none, h' =>
        have ha : a = x := Option.some_inj.mp h'
        exact Or.inr (by rw [← ha]; exact List.mem_cons_self _ _)
      | some m, h' =>
        simp only [] at h'
        by_cases hgt : a.id > m.id
        · rw [if_pos hgt] at h'
          exact Or.inr (by rw [← Option.some_inj.mp h']; exact List.mem_cons_self _ _)
        · rw [if_neg hgt] at h'
          exact Or.inl h'
    · exact Or.inr (List.mem_cons_of_mem _ h')

lemma maxById_mem (l : List WorkflowLog) (x : WorkflowLog)
    (h : maxById l = some x) : x ∈ l := by
  unfold maxById at h
  rcases maxById_go_mem l none x h with h' | h'
  · cases h'
  · exact h'

lemma lastSenderUser_isSome (db : DB) (r : Report)
    (hcr0 : r.createdById ≠ 0)
    (hcr : ∃ u ∈ db.users, u.id = r.createdById)
    (hact : ∀ l ∈ db.logs, l.actorId ≠ 0 → ∃ u ∈ db.users, u.id = l.actorId) :
    ∃ s, lastSenderUser db r = some s := by
  have hfind : ∀ i : Nat, i ≠ 0 → (∃ u ∈ db.users, u.id = i) →
      ∃ s, (if i = 0 then none else db.users.find? (fun u => u.id == i)) = some s := by
    intro i hi ⟨u, hu, hid⟩
    rw [if_neg hi]
    exact Option.isSome_iff_exists.mp
      (List.find?_isSome.mpr ⟨u, hu, by simp [hid]⟩)
  unfold lastSenderUser
  cases hm : maxById (db.logs.filter (senderLogMatch r)) with
  | none => exact hfind _ hcr0 hcr
  | some l =>
    have hlog : l ∈ db.logs := List.mem_of_mem_filter (maxById_mem _ _ hm)
    simp only []
    by_cases ha : l.actorId ≠ 0
    · rw [if_pos ha]
      exact hfind _ ha (hact l hlog ha)
    · rw [if_neg ha]
      exact hfind _ hcr0 hcr

lemma eligibleRecipients_revision_cases (db : DB) (r : Report) (s : User)
    (hs : lastSenderUser db r = some s) :
    eligibleRecipients db r "request_revision" = [s] ∨
    (eligibleRecipients db r "request_revision" =
        (getRecipients db r "request_revision").getD [] ∧
      (getRecipients db r "request_revision").getD [] ≠ []) := by
  by_cases hC : r.kind = ReportKind.provincial ∧ r.status = ReportStatus.provManagerReview
  · by_cases hq : s.role = Role.orgProvExpert ∧ s.orgId = some r.orgId
    · simp [eligibleRecipients, hs, hC.1, hC.2, hq.1, hq.2]
    · by_cases he : (getRecipients db r "request_revision").getD [] = []
      · simp [eligibleRecipients, hs, hC.1, hC.2, hq, he]
      · simp [eligibleRecipients, hs, hC.1, hC.2, hq, he]
  · by_cases he : (getRecipients db r "request_revision").getD [] = []
    · simp [eligibleRecipients, hs, hC, he]
    · simp [eligibleRecipients, hs, hC, he]

/-- Claim C6: Under referential integrity of the workflow log and the report's
creator (non-zero ids that resolve in the user directory), the last-sender
lookup always resolves; whenever role-based `request_revision` resolution is
empty, the eligible set is exactly the single resolved sender; with no
matching log entry the resolved sender is the report's creator; hence
`request_revision` recipients are never empty on a non-terminal report. -/
theorem request_revision_fallback (db : DB) (r : Report)
    (hcr0 : r.createdById ≠ 0)
    (hcr : ∃ u ∈ db.users, u.id = r.createdById)
    (hact : ∀ l ∈ db.logs, l.actorId ≠ 0 → ∃ u ∈ db.users, u.id = l.actorId) :
    (∃ s, lastSenderUser db r = some s) ∧
    ((getRecipients db r "request_revision").getD [] = [] →
      ∃ s, lastSenderUser db r = some s ∧
        eligibleRecipients db r "request_revision" = [s]) ∧
    (db.logs.filter (senderLogMatch r) = [] →
      ∃ s, lastSenderUser db r = some s ∧ s.id = r.createdById) ∧
    (r.status ≠ ReportStatus.finalApproved →
      eligibleRecipients db r "request_revision" ≠ []) := by
  obtain ⟨s, hs⟩ := lastSenderUser_isSome db r hcr0 hcr hact
  refine ⟨⟨s, hs⟩, ?_, ?_, ?_⟩
  · intro hempty
    rcases eligibleRecipients_revision_cases db r s hs with h | ⟨_, hne⟩
    · exact ⟨s, hs, h⟩
    · exact absurd hempty hne
  · intro hnolog
    refine ⟨s, hs, ?_⟩
    unfold lastSenderUser at hs
    rw [hnolog] at hs
    simp only [maxById, List.foldl_nil] at hs
    rw [if_neg hcr0] at hs
    simpa using List.find?_some hs
  · intro _
    rcases eligibleRecipients_revision_cases db r s hs with h | ⟨h, hne⟩
    · rw [h]; simp
    · rw [h]; exact hne

/-- Witness for `request_revision_fallback`: a county draft report with no
workflow log still resolves `request_revision` recipients (to its creator). -/
theorem request_revision_fallback_witness :
    eligibleRecipients ⟨[⟨11, .orgCountyExpert, some 5, some 12, true⟩], [], [], [], [], []⟩
      ⟨2, 5, some 12, 11, some 11, .county, .draft, none⟩ "request_revision" ≠ [] :=
  (request_revision_fallback
      ⟨[⟨11, .orgCountyExpert, some 5, some 12, true⟩], [], [], [], [], []⟩
      ⟨2, 5, some 12, 11, some 11, .county, .draft, none⟩
      (by decide) ⟨⟨11, .orgCountyExpert, some 5, some 12, true⟩, by decide, by decide⟩
      (by intro l hl; cases hl)).2.2.2 (by decide)

/-- Claim C3: A validated action moves the report to the matching transition's
`to_status`, hands ownership to the chosen recipient (cleared for
`final_approve`), appends the workflow-log row
`(from_status, to_status, action, actor, comment)` and notifies the new
owner (the creator for `final_approve`); a non-`final_approve` action with no
eligible recipient is rejected, a supplied recipient outside the eligible
set is rejected as invalid, and an omitted recipient defaults to the first
eligible one. -/
theorem do_action_contract (db : DB) (u : User) (reportId : Nat) (action : String)
    (recipientId : Option Nat) (comment : String) :
    (∀ res, doAction db u reportId action recipientId comment = .ok res →
      ∃ r t, db.reports.find? (fun x => x.id == reportId) = some r ∧
        getTransition r.kind r.status action = some t ∧
        res.report.status = t.toStatus ∧
        res.log = ⟨newLogId db, r.id, u.id, r.status.value, t.toStatus.value,
                   action, comment⟩ ∧
        (action = "final_approve" →
          res.report.currentOwnerId = none ∧
          res.notifications.map Notification.userId = [r.createdById]) ∧
        (action ≠ "final_approve" →
          ∃ rid, res.report.currentOwnerId = some rid ∧
            (eligibleRecipients db r action).any (fun v => v.id == rid) = true ∧
            (recipientId = none →
              (eligibleRecipients db r action).head?.map User.id = some rid) ∧
            (∀ x, recipientId = some x → rid = x) ∧
            (res.notifications.map Notification.userId).head? = some rid)) ∧
    (∀ r, db.reports.find? (fun x => x.id == reportId) = some r →
      canViewReport u (some r.orgId) r.countyId r.currentOwnerId = true →
      canAct u r action = true →
      action ≠ "final_approve" →
      eligibleRecipients db r action = [] →
      doAction db u reportId action recipientId comment = .error .noRecipient) ∧
    (∀ r x, db.reports.find? (fun y => y.id == reportId) = some r →
      canViewReport u (some r.orgId) r.countyId r.currentOwnerId = true →
      canAct u r action = true →
      action ≠ "final_approve" →
      eligibleRecipients db r action ≠ [] →
      recipientId = some x →
      (eligibleRecipients db r action).any (fun v => v.id == x) = false →
      doAction db u reportId action recipientId comment = .error .invalidRecipient) := by
  refine ⟨?_, ?_, ?_⟩
  · intro res hres
    unfold doAction at hres
    cases hfind : db.reports.find? (fun x => x.id == reportId) with
    | none => rw [hfind] at hres; cases hres
    | some r =>
      rw [hfind] at hres
      simp only [] at hres
      refine ⟨r, ?_⟩
      cases hview : canViewReport u (some r.orgId) r.countyId r.currentOwnerId with
      | false => rw [hview] at hres; simp at hres
      | true =>
        rw [hview] at hres
        simp only [Bool.not_true, if_neg (by simp : ¬(false = true))] at hres
        cases hcan : canAct u r action with
        | false => rw [hcan] at hres; simp at hres
        | true =>
          rw [hcan] at hres
          simp only [Bool.not_true, if_neg (by simp : ¬(false = true))] at hres
          by_cases ha : action = "final_approve"
          · rw [if_pos ha] at hres
            cases htr : getTransition r.kind r.status action with
            | none => rw [htr] at hres; cases hres
            | some t =>
              rw [htr] at hres
              simp only [] at hres
              injection hres with hres
              refine ⟨t, rfl, rfl, ?_, ?_, ?_, ?_⟩
              · rw [← hres]
              · rw [← hres]
              · intro _
                rw [← hres]
                exact ⟨rfl, rfl⟩
              · intro hne
                exact absurd ha hne
          · rw [if_neg ha] at hres
            cases hrec : eligibleRecipients db r action with
            | nil => rw [hrec] at hres; cases hres
            | cons r0 rest =>
              rw [hrec] at hres
              simp only [] at hres
              cases hany : (r0 :: rest).any (fun v => v.id == recipientId.getD r0.id) with
              | false => rw [hany] at hres; simp at hres
              | true =>
                rw [hany] at hres
                simp only [Bool.not_true, if_neg (by simp : ¬(false = true))] at hres
                cases htr : getTransition r.kind r.status action with
                | none => rw [htr] at hres; cases hres
                | some t =>
                  rw [htr] at hres
                  simp only [] at hres
                  injection hres with hres
                  refine ⟨t, rfl, rfl, ?_, ?_, ?_, ?_⟩
                  · rw [← hres]
                  · rw [← hres]
                  · intro hfa
                    exact absurd hfa ha
                  · intro _
                    refine ⟨recipientId.getD r0.id, ?_, ?_, ?_, ?_, ?_⟩
                    · rw [← hres]
                    · exact hany
                    · intro hn; rw [hn]; rfl
                    · intro x hx; rw [hx]; rfl
                    · rw [← hres]; rfl
  · intro r hfind hview hcan ha helig
    unfold doAction
    rw [hfind]
    simp [hview, hcan, ha, helig]
  · intro r x hfind hview hcan ha hne hx hany
    unfold doAction
    rw [hfind]
    cases hrec : eligibleRecipients db r action with
    | nil => exact absurd hrec hne
    | cons r0 rest =>
      rw [hrec] at hany
      simp [hview, hcan, ha, hrec, hx, hany]

/-- Witness data for the do-action theorems: a provincial report at
`prov_manager_review` owned by a provincial manager, with no secretariat
users in the directory. -/
def c3Sender : User := ⟨7, .orgCountyExpert, some 1, some 3, true⟩

/-- Witness data: the provincial manager who owns the report. -/
def c3Manager : User := ⟨9, .orgProvManager, some 1, none, true⟩

/-- Witness data: the provincial report at `prov_manager_review`. -/
def c3Report : Report := ⟨1, 1, none, 7, some 9, .provincial, .provManagerReview, none⟩

/-- Witness data: the database (no secretariat users, so `approve` has no
eligible recipient). -/
def c3DB : DB := ⟨[c3Sender, c3Manager], [c3Report], [], [], [], []⟩

/-- Witness for `do_action_contract`: `approve` with an empty eligible set
is rejected with the no-recipient error. -/
theorem do_action_contract_witness :
    doAction c3DB c3Manager 1 "approve" none "" = .error .noRecipient :=
  (do_action_contract c3DB c3Manager 1 "approve" none "").2.1 c3Report
    (by rfl) (by decide) (by decide) (by decide) (by decide)

/-- Claim C10: Every successful workflow action also rewrites `content_json`:
the stored content becomes the reloaded document with its aggregation
recomputed and its sections re-synced against the linked submissions, while
the report's other identity fields are untouched. -/
theorem do_action_rewrites_content (db : DB) (u : User) (reportId : Nat)
    (action : String) (recipientId : Option Nat) (comment : String)
    (res : ActionResult)
    (hres : doAction db u reportId action recipientId comment = .ok res) :
    ∃ r, db.reports.find? (fun x => x.id == reportId) = some r ∧
      res.report.contentJson = some (updatedContent db r) ∧
      res.report.id = r.id ∧ res.report.orgId = r.orgId ∧
      res.report.countyId = r.countyId ∧
      res.report.createdById = r.createdById ∧
      res.report.kind = r.kind := by
  unfold doAction at hres
  cases hfind : db.reports.find? (fun x => x.id == reportId) with
  | none => rw [hfind] at hres; cases hres
  | some r =>
    rw [hfind] at hres
    simp only [] at hres
    refine ⟨r, rfl, ?_⟩
    cases hview : canViewReport u (some r.orgId) r.countyId r.currentOwnerId with
    | false => rw [hview] at hres; simp at hres
    | true =>
      rw [hview] at hres
      simp only [Bool.not_true, if_neg (by simp : ¬(false = true))] at hres
      cases hcan : canAct u r action with
      | false => rw [hcan] at hres; simp at hres
      | true =>
        rw [hcan] at hres
        simp only [Bool.not_true, if_neg (by simp : ¬(false = true))] at hres
        by_cases ha : action = "final_approve"
        · rw [if_pos ha] at hres
          cases htr : getTransition r.kind r.status action with
          | none => rw [htr] at hres; cases hres
          | some t =>
            rw [htr] at hres
            simp only [] at hres
            injection hres with hres
            rw [← hres]
            exact ⟨rfl, rfl, rfl, rfl, rfl, rfl⟩
        · rw [if_neg ha] at hres
          cases hrec : eligibleRecipients db r action with
          | nil => rw [hrec] at hres; cases hres
          | cons r0 rest =>
            rw [hrec] at hres
            simp only [] at hres
            cases hany : (r0 :: rest).any (fun v => v.id == recipientId.getD r0.id) with
            | false => rw [hany] at hres; simp at hres
            | true =>
              rw [hany] at hres
              simp only [Bool.not_true, if_neg (by simp : ¬(false = true))] at hres
              cases htr : getTransition r.kind r.status action with
              | none => rw [htr] at hres; cases hres
              | some t =>
                rw [htr] at hres
                simp only [] at hres
                injection hres with hres
                rw [← hres]
                exact ⟨rfl, rfl, rfl, rfl, rfl, rfl⟩

instance : Inhabited Json := ⟨.null⟩

instance : Inhabited Report := ⟨⟨0, 0, none, 0, none, .county, .draft, none⟩⟩

instance : Inhabited ActionResult :=
  ⟨⟨default, ⟨0, 0, 0, "", "", "", ""⟩, []⟩⟩

/-- C10 witness data: the county expert who owns the draft report. -/
def c10User : User := ⟨11, .orgCountyExpert, some 5, some 12, true⟩

/-- C10 witness data: the county manager who receives the submission. -/
def c10Manager : User := ⟨12, .orgCountyManager, some 5, some 12, true⟩

/-- C10 witness data: a draft county report with empty content. -/
def c10Report : Report := ⟨2, 5, some 12, 11, some 11, .county, .draft, none⟩

/-- C10 witness data: a submission linked to the report. -/
def c10Submission : Submission := ⟨101, 42, some (.obj [("a", .num 3)])⟩

/-- C10 witness data: the form template of the linked submission. -/
def c10Form : FormTemplate :=
  ⟨42, "Form42",
   some (.obj [("fields",
     .arr [.obj [("name", .str "a"), ("label", .str "A"), ("type", .str "number")]])])⟩

/-- C10 witness data: the database. -/
def c10DB : DB :=
  ⟨[c10User, c10Manager], [c10Report], [], [⟨1, 2, 101⟩], [c10Submission], [c10Form]⟩

/-- C10 witness data: the result of submitting the draft for review. -/
def c10Res : ActionResult :=
  (doAction c10DB c10User 2 "submit_for_review" none "").toOption.getD default

/-- Witness for `do_action_rewrites_content`: submitting the draft rewrites
its content (empty before, synced document with aggregation after). -/
theorem do_action_rewrites_content_witness :
    c10Res.report.contentJson = some (updatedContent c10DB c10Report) ∧
    c10Res.report.contentJson ≠ c10Report.contentJson := by
  obtain ⟨r, hr, hc, -⟩ :=
    do_action_rewrites_content c10DB c10User 2 "submit_for_review" none "" c10Res (by rfl)
  have hr' : r = c10Report := by
    have h2 : (some r : Option Report) = some c10Report := by rw [← hr]; rfl
    exact Option.some_inj.mp h2
  rw [hr'] at hc
  refine ⟨hc, ?_⟩
  rw [hc]
  simp [c10Report]

end Sazegari
